import Mathlib

/-!
Shallow embedding of the DecisionLens X-Ray tracing core
(`app/xray/client.py`, `app/xray/run.py`, `app/xray/step.py`,
`app/xray/store/sqlite_store.py`).

The store is modelled as two in-memory tables of rows, mirroring the two
SQLite tables; every store operation is translated line-by-line from
`SQLiteStore`.  The run/step lifecycle (context managers in `client.py` /
`run.py` / `step.py`) is modelled as explicit state passing: a caller's
run body is a list of step specifications (each with the actions it
performs on the step handle and the exception, if any, that it raises)
plus an optional trailing exception, and the facade's `run(...)` scope is
a function from that body to the final store state together with the
exception that propagates to the caller.

Timestamps are natural numbers (milliseconds); `datetime.utcnow()` calls
are modelled by explicit timestamp parameters.  `duration_ms` is computed
as an integer difference, as in the source.  The facade's `_current_run`
bookkeeping does not affect the store or propagation and is not modelled.
-/

namespace XRay

/-- A JSON value (the shape of the payloads the Python code passes through
`json.dumps` / `json.loads`); numbers restricted to integers, which covers
every payload the repository produces. -/
inductive JValue where
  | null
  | bool (b : Bool)
  | num (n : Int)
  | str (s : String)
  | arr (items : List JValue)
  | obj (fields : List (String × JValue))

/-- Python truthiness of a JSON-shaped value, as used by
`json.dumps(x) if x else None` (sqlite_store.py lines 153-155) and
`metadata or \x7b\x7d` / `input_data or \x7b\x7d` (client.py line 36,
run.py line 49). -/
def JValue.truthy : JValue → Bool
  | .null => false
  | .bool b => b
  | .num n => n != 0
  | .str s => s != ""
  | .arr l => !l.isEmpty
  | .obj l => !l.isEmpty

/-- Text stored in a JSON column: either the `json.dumps` serialization of
a JSON value (always non-empty, valid JSON text) or text that `json.loads`
rejects.  Valid JSON text is never empty, so the two summands are
disjoint and `malformed ""` represents the stored empty string. -/
inductive JText where
  | valid (v : JValue)
  | malformed (s : String)

/-- `json.dumps`: serializing a JSON value yields valid JSON text that
`json.loads` maps back to the same value (key set and values; JSON-object
key order is not part of the model). -/
def jsonDumps (v : JValue) : JText := .valid v

/-- `json.loads` with the `except (json.JSONDecodeError, TypeError)`
outcome as `none`. -/
def jsonLoads : JText → Option JValue
  | .valid v => some v
  | .malformed _ => none

/-- Python truthiness of the stored column text (`if run["metadata"]:`
etc.): `None` and `""` are falsy, any other text truthy; `json.dumps`
output is never empty. -/
def JText.truthy : JText → Bool
  | .valid _ => true
  | .malformed s => s != ""

/-- One row of the `runs` table (sqlite_store.py lines 40-51). -/
structure RunRow where
  id : String
  name : String
  started_at : Nat
  ended_at : Option Nat
  duration_ms : Option Int
  status : String
  metadata : Option JText
  error : Option String

/-- One row of the `steps` table (sqlite_store.py lines 53-71). -/
structure StepRow where
  id : String
  run_id : String
  name : String
  step_index : Nat
  started_at : Nat
  ended_at : Option Nat
  duration_ms : Option Int
  status : String
  input : Option JText
  output : Option JText
  reasoning : Option String
  filters_applied : Option JText
  evaluations : Option JText
  error : Option String

/-- The database: the two tables, rows in insertion order. -/
structure DB where
  runs : List RunRow
  steps : List StepRow

/-- The spec's name (§7) for a backend write failure; here raised for the
PRIMARY KEY constraint violation on INSERT (sqlite3.IntegrityError in the
source). -/
structure StorageError where
  msg : String

/-- The row INSERTed by `create_run` (sqlite_store.py lines 83-92). -/
def createdRunRow (run_id nm : String) (metadata : JValue) (now : Nat) :
    RunRow :=
  { id := run_id, name := nm, started_at := now, ended_at := none,
    duration_ms := none, status := "running",
    metadata := some (jsonDumps metadata), error := none }

/-- `SQLiteStore.create_run` (lines 80-95): INSERT a new row with status
"running"; the PRIMARY KEY on `id` makes the INSERT fail when the id is
already present. -/
def create_run (db : DB) (run_id nm : String) (metadata : JValue)
    (now : Nat) : Except StorageError DB :=
  if db.runs.any (fun r => r.id == run_id) then
    .error ⟨"UNIQUE constraint failed: runs.id"⟩
  else
    .ok { db with runs := db.runs ++ [createdRunRow run_id nm metadata now] }

/-- The SET clause of `finish_run` (sqlite_store.py lines 101-111). -/
def finishedRunRow (r : RunRow) (ended_at : Nat) (duration_ms : Int)
    (status : String) (error : Option String) : RunRow :=
  { r with
    ended_at := some ended_at, duration_ms := some duration_ms,
    status := status, error := error }

/-- `SQLiteStore.finish_run` (lines 97-114): UPDATE the matching row in
place; zero matching rows update nothing and raise nothing. -/
def finish_run (db : DB) (run_id : String) (ended_at : Nat)
    (duration_ms : Int) (status : String) (error : Option String) : DB :=
  { db with runs := db.runs.map (fun r =>
      if r.id == run_id then finishedRunRow r ended_at duration_ms status error
      else r) }

/-- The row INSERTed by `create_step` (sqlite_store.py lines 120-132). -/
def createdStepRow (step_id run_id nm : String) (index : Nat)
    (input_data : JValue) (reasoning : Option String) (now : Nat) : StepRow :=
  { id := step_id, run_id := run_id, name := nm, step_index := index,
    started_at := now, ended_at := none, duration_ms := none,
    status := "running", input := some (jsonDumps input_data),
    output := none, reasoning := reasoning, filters_applied := none,
    evaluations := none, error := none }

/-- `SQLiteStore.create_step` (lines 116-135): INSERT a new step row with
status "running"; PRIMARY KEY on `id` (the FOREIGN KEY on `run_id` is not
enforced: sqlite foreign-key checking is off by default and the source
never enables it). -/
def create_step (db : DB) (step_id run_id nm : String) (index : Nat)
    (input_data : JValue) (reasoning : Option String) (now : Nat) :
    Except StorageError DB :=
  if db.steps.any (fun s => s.id == step_id) then
    .error ⟨"UNIQUE constraint failed: steps.id"⟩
  else
    .ok { db with steps := db.steps ++
      [createdStepRow step_id run_id nm index input_data reasoning now] }

/-- `json.dumps(x) if x else None` applied to an optional payload
(sqlite_store.py lines 153-155). -/
def dumpsIfTruthy : Option JValue → Option JText
  | some x => if x.truthy then some (jsonDumps x) else none
  | none => none

/-- The SET clause of `finish_step` (sqlite_store.py lines 144-158):
falsy payloads are stored as NULL. -/
def finishedStepRow (s : StepRow) (ended_at : Nat) (duration_ms : Int)
    (status : String) (output filters_applied evaluations : Option JValue)
    (error : Option String) : StepRow :=
  { s with
    ended_at := some ended_at, duration_ms := some duration_ms,
    status := status, output := dumpsIfTruthy output,
    filters_applied := dumpsIfTruthy filters_applied,
    evaluations := dumpsIfTruthy evaluations, error := error }

/-- `SQLiteStore.finish_step` (lines 137-161): UPDATE the matching step
row; zero matching rows update nothing and raise nothing. -/
def finish_step (db : DB) (step_id : String) (ended_at : Nat)
    (duration_ms : Int) (status : String)
    (output filters_applied evaluations : Option JValue)
    (error : Option String) : DB :=
  { db with steps := db.steps.map (fun s =>
      if s.id == step_id then
        finishedStepRow s ended_at duration_ms status output
          filters_applied evaluations error
      else s) }

/-- Decoding of a mapping-valued JSON column on read (`get_run` /
`list_runs`): absent or falsy text, or text `json.loads` rejects, becomes
the empty mapping. -/
def decodeMapField : Option JText → JValue
  | none => .obj []
  | some t => if t.truthy then (jsonLoads t).getD (.obj []) else .obj []

/-- Decoding of `filters_applied` / `evaluations` on read: absent or falsy
text, or text `json.loads` rejects, becomes `None`. -/
def decodeOptField : Option JText → Option JValue
  | none => none
  | some t => if t.truthy then jsonLoads t else none

/-- A run row as returned by `list_runs` / `get_run`: the metadata column
decoded, every other column as stored. -/
structure RunView where
  id : String
  name : String
  started_at : Nat
  ended_at : Option Nat
  duration_ms : Option Int
  status : String
  metadata : JValue
  error : Option String

def runRowView (r : RunRow) : RunView :=
  { id := r.id, name := r.name, started_at := r.started_at,
    ended_at := r.ended_at, duration_ms := r.duration_ms,
    status := r.status, metadata := decodeMapField r.metadata,
    error := r.error }

/-- A step row as returned by `get_run` (lines 210-250): `step_index`
copied to `index`, JSON columns decoded with their fallbacks, every other
column as stored. -/
structure StepView where
  id : String
  run_id : String
  name : String
  index : Nat
  started_at : Nat
  ended_at : Option Nat
  duration_ms : Option Int
  status : String
  input : JValue
  output : JValue
  reasoning : Option String
  filters_applied : Option JValue
  evaluations : Option JValue
  error : Option String

def stepRowView (s : StepRow) : StepView :=
  { id := s.id, run_id := s.run_id, name := s.name, index := s.step_index,
    started_at := s.started_at, ended_at := s.ended_at,
    duration_ms := s.duration_ms, status := s.status,
    input := decodeMapField s.input, output := decodeMapField s.output,
    reasoning := s.reasoning,
    filters_applied := decodeOptField s.filters_applied,
    evaluations := decodeOptField s.evaluations, error := s.error }

/-- `ORDER BY started_at DESC` (started_at is ISO-8601 text, whose
lexicographic order is chronological). -/
def runDescOrder (a b : RunRow) : Prop := b.started_at ≤ a.started_at

instance : DecidableRel runDescOrder := fun a b =>
  inferInstanceAs (Decidable (b.started_at ≤ a.started_at))

instance : IsTotal RunRow runDescOrder :=
  ⟨fun a b => (Nat.le_total a.started_at b.started_at).symm⟩

instance : IsTrans RunRow runDescOrder :=
  ⟨fun _ _ _ hab hbc => Nat.le_trans hbc hab⟩

/-- `ORDER BY step_index ASC`. -/
def stepAscOrder (a b : StepRow) : Prop := a.step_index ≤ b.step_index

instance : DecidableRel stepAscOrder := fun a b =>
  inferInstanceAs (Decidable (a.step_index ≤ b.step_index))

/-- `SQLiteStore.list_runs` (lines 163-185): the `limit` most recent runs,
newest first, metadata decoded, steps not included. -/
def list_runs (db : DB) (limit : Nat) : List RunView :=
  ((db.runs.insertionSort runDescOrder).take limit).map runRowView

/-- `get_run`'s result: the run plus its steps ordered by index. -/
structure RunDetail where
  run : RunView
  steps : List StepView

/-- `SQLiteStore.get_run` (lines 187-255): `None` when no row matches,
otherwise the decoded run together with its steps ordered by
`step_index` ascending. -/
def get_run (db : DB) (run_id : String) : Option RunDetail :=
  (db.runs.find? (fun r => r.id == run_id)).map (fun r =>
    { run := runRowView r,
      steps := ((db.steps.filter (fun s => s.run_id == run_id)).insertionSort
        stepAscOrder).map stepRowView })

/-- Python truthiness of `self._error` (an optional string):
`"error" if self._error else "success"` treats both `None` and the empty
string as falsy (run.py line 78, step.py line 72). -/
def optStrTruthy : Option String → Bool
  | none => false
  | some s => s != ""

/-- `x or \x7b\x7d` for an optional payload (client.py line 36,
run.py lines 49 and 60): `None` and falsy values are replaced by the
empty mapping. -/
def effPayload : Option JValue → JValue
  | some x => if x.truthy then x else .obj []
  | none => .obj []

/-- The mutable state of a `Step` handle (step.py lines 11-25). -/
structure StepState where
  step_id : String
  run_id : String
  name : String
  index : Nat
  input_data : JValue
  reasoning : Option String
  started_at : Nat
  output : Option JValue
  filters_applied : Option JValue
  evaluations : List JValue
  error : Option String

/-- One call a step body makes on its step handle. -/
inductive StepAction where
  | setOutput (v : JValue)
  | setFilters (v : JValue)
  | addEvaluation (v : JValue)
  | addEvaluations (vs : List JValue)

/-- `Step.set_output` / `set_filters` / `add_evaluation` /
`add_evaluations` (step.py lines 27-62). -/
def applyStepAction (st : StepState) : StepAction → StepState
  | .setOutput v => { st with output := some v }
  | .setFilters v => { st with filters_applied := some v }
  | .addEvaluation v => { st with evaluations := st.evaluations ++ [v] }
  | .addEvaluations vs => { st with evaluations := st.evaluations ++ vs }

/-- `Step._finish` (step.py lines 68-83): status from the recorded error's
truthiness, the evaluation list passed as `None` when empty. -/
def stepFinish (st : StepState) (db : DB) (ended : Nat) : DB :=
  finish_step db st.step_id ended ((ended : Int) - (st.started_at : Int))
    (if optStrTruthy st.error then "error" else "success")
    st.output st.filters_applied
    (if st.evaluations.isEmpty then none else some (.arr st.evaluations))
    st.error

/-- The mutable state of a `Run` handle (run.py lines 14-21). -/
structure RunH where
  run_id : String
  name : String
  metadata : JValue
  step_index : Nat
  started_at : Nat
  error : Option String

/-- What one step scope opened inside the run body does: the handle
actions performed, then optionally an exception with the given stringified
message raised by the body, plus the timestamps of the step's start and
finish. -/
structure StepSpec where
  sid : String
  sname : String
  input : Option JValue
  reasoning : Option String
  actions : List StepAction
  raises : Option String
  tS : Nat
  tE : Nat

/-- The `Step` handle as constructed in `Run.step` (run.py lines 44-52). -/
def initStepState (run : RunH) (s : StepSpec) : StepState :=
  { step_id := s.sid, run_id := run.run_id, name := s.sname,
    index := run.step_index, input_data := effPayload s.input,
    reasoning := s.reasoning, started_at := s.tS, output := none,
    filters_applied := none, evaluations := [], error := none }

/-- `Run.step` (run.py lines 23-68): allocate the next index and bump the
counter, `create_step`, run the body, record the error on a raise, and
finish the step on every exit path; the third component is the exception
that propagates out of the `with` block (`create_step` raising is caught
and re-raised by the same handler, after `Step._finish` runs against the
absent row). -/
def runStep (run : RunH) (db : DB) (s : StepSpec) :
    RunH × DB × Option String :=
  let run1 := { run with step_index := run.step_index + 1 }
  let st0 := initStepState run s
  match create_step db s.sid run.run_id s.sname run.step_index
      (effPayload s.input) s.reasoning s.tS with
  | .error e =>
      (run1, stepFinish { st0 with error := some e.msg } db s.tE, some e.msg)
  | .ok db1 =>
      let st1 := s.actions.foldl applyStepAction st0
      match s.raises with
      | none => (run1, stepFinish st1 db1 s.tE, none)
      | some m =>
          (run1, stepFinish { st1 with error := some m } db1 s.tE, some m)

/-- A run body that lets a step failure propagate: the remaining steps
never open and the exception surfaces from the body. -/
def execSteps (run : RunH) (db : DB) :
    List StepSpec → RunH × DB × Option String
  | [] => (run, db, none)
  | s :: rest =>
      match runStep run db s with
      | (run1, db1, none) => execSteps run1 db1 rest
      | (run1, db1, some m) => (run1, db1, some m)

/-- A run body that catches each step's failure itself and keeps going:
every step in the list opens. -/
def execStepsCaught (run : RunH) (db : DB) :
    List StepSpec → RunH × DB
  | [] => (run, db)
  | s :: rest =>
      execStepsCaught (runStep run db s).1 (runStep run db s).2.1 rest

/-- `Run._finish` (run.py lines 74-86). -/
def runFinish (run : RunH) (db : DB) (ended : Nat) : DB :=
  finish_run db run.run_id ended ((ended : Int) - (run.started_at : Int))
    (if optStrTruthy run.error then "error" else "success") run.error

/-- What the caller does inside one `xray.run(...)` scope: the run id the
facade generates, the run's name and metadata, the step scopes the body
opens in order, an optional trailing exception the body raises after
them, and the run's start and finish timestamps. -/
structure RunSpec where
  rid : String
  rname : String
  metadata : Option JValue
  steps : List StepSpec
  raises : Option String
  t0 : Nat
  t1 : Nat

/-- The `Run` handle as constructed in `XRay.run` (client.py line 36). -/
def initRunH (rs : RunSpec) : RunH :=
  { run_id := rs.rid, name := rs.rname, metadata := effPayload rs.metadata,
    step_index := 0, started_at := rs.t0, error := none }

/-- `XRay.run` (client.py lines 22-51): `create_run`, yield to the body,
on an exception record its stringified message on the run and re-raise,
and always `Run._finish` in the `finally` block; the second component is
the exception that propagates to the facade's caller. -/
def xrayRun (db : DB) (rs : RunSpec) : DB × Option String :=
  let run0 := initRunH rs
  match create_run db rs.rid rs.rname (effPayload rs.metadata) rs.t0 with
  | .error e =>
      (runFinish { run0 with error := some e.msg } db rs.t1, some e.msg)
  | .ok db1 =>
      match execSteps run0 db1 rs.steps with
      | (run1, db2, some m) =>
          (runFinish { run1 with error := some m } db2 rs.t1, some m)
      | (run1, db2, none) =>
          match rs.raises with
          | some m =>
              (runFinish { run1 with error := some m } db2 rs.t1, some m)
          | none => (runFinish run1 db2 rs.t1, none)

/-- The exception, if any, that surfaces from the caller's body inside the
run scope: the first failing step's message, else the body's trailing
raise (when the run id is fresh the `create_run` branch is dead). -/
def runBodyOutcome (db : DB) (rs : RunSpec) : Option String :=
  match create_run db rs.rid rs.rname (effPayload rs.metadata) rs.t0 with
  | .error e => some e.msg
  | .ok db1 =>
      match execSteps (initRunH rs) db1 rs.steps with
      | (_, _, some m) => some m
      | (_, _, none) => rs.raises

/-- A sample persisted run row, used as a concrete store state. -/
def sampleRunRow : RunRow :=
  { id := "r", name := "n", started_at := 0, ended_at := none,
    duration_ms := none, status := "running", metadata := none,
    error := none }

/-- The empty store. -/
def emptyDB : DB := { runs := [], steps := [] }

/-- The step of the "boom" scenario: step "s1" with input `{"x": 1}`
whose body raises an exception with message "boom". -/
def boomStep : StepSpec :=
  { sid := "step-1", sname := "s1", input := some (.obj [("x", .num 1)]),
    reasoning := none, actions := [], raises := some "boom", tS := 1,
    tE := 2 }

/-- The "boom" scenario: run "r" whose body opens the one failing step
and lets the exception propagate. -/
def boomSpec : RunSpec :=
  { rid := "run-1", rname := "r", metadata := none, steps := [boomStep],
    raises := none, t0 := 0, t1 := 3 }

/-- A run scope whose body raises an exception whose stringified message
is empty (e.g. `raise Exception()`). -/
def emptyMsgSpec : RunSpec :=
  { rid := "run-1", rname := "r", metadata := none, steps := [],
    raises := some "", t0 := 0, t1 := 3 }

/-- A plain successful run scope with no steps. -/
def okSpec : RunSpec :=
  { rid := "run-1", rname := "r", metadata := none, steps := [],
    raises := none, t0 := 0, t1 := 5 }

/-- The step of the empty-filters scenario: its body records the empty
mapping as the filters description. -/
def emptyFiltersStep : StepSpec :=
  { sid := "s1", sname := "f", input := none, reasoning := none,
    actions := [.setFilters (.obj [])], raises := none, tS := 1, tE := 2 }

/-- A run whose single step sets filters to the empty mapping and
completes normally. -/
def emptyFiltersSpec : RunSpec :=
  { rid := "run-1", rname := "r", metadata := none,
    steps := [emptyFiltersStep], raises := none, t0 := 0, t1 := 3 }

/-- A step whose body adds the three given evaluation records in order. -/
def threeEvalStep (r1 r2 r3 : JValue) : StepSpec :=
  { sid := "s1", sname := "eval", input := none, reasoning := none,
    actions := [.addEvaluation r1, .addEvaluation r2, .addEvaluation r3],
    raises := none, tS := 1, tE := 2 }

/-- A run with a single step whose body adds three evaluation records. -/
def threeEvalSpec (r1 r2 r3 : JValue) : RunSpec :=
  { rid := "run-1", rname := "r", metadata := none,
    steps := [threeEvalStep r1 r2 r3], raises := none, t0 := 0, t1 := 3 }

/-- A step carrying the given input, output, filters and evaluations. -/
def payloadStep (inp o f : JValue) (evs : List JValue) : StepSpec :=
  { sid := "s1", sname := "p", input := some inp, reasoning := none,
    actions := [.setOutput o, .setFilters f, .addEvaluations evs],
    raises := none, tS := 1, tE := 2 }

/-- A run carrying the given metadata with one payload-carrying step. -/
def payloadSpec (md inp o f : JValue) (evs : List JValue) : RunSpec :=
  { rid := "run-1", rname := "r", metadata := some md,
    steps := [payloadStep inp o f evs], raises := none, t0 := 0, t1 := 3 }

/-- A stored payload cell that is absent, or holds text `json.loads`
rejects. -/
def badJson : Option JText → Prop
  | none => True
  | some (.valid _) => False
  | some (.malformed _) => True

/-- A stored run row whose metadata column holds malformed text. -/
def badRunRow : RunRow :=
  { id := "bad", name := "n", started_at := 0, ended_at := none,
    duration_ms := none, status := "running",
    metadata := some (.malformed "oops"), error := none }

/-- A stored step row with malformed input and an empty-string filters
column. -/
def badStepRow : StepRow :=
  { id := "s", run_id := "bad", name := "sn", step_index := 0,
    started_at := 0, ended_at := none, duration_ms := none,
    status := "running", input := some (.malformed "oops"), output := none,
    reasoning := none, filters_applied := some (.malformed ""),
    evaluations := none, error := none }

/-- A store holding only the malformed run and step rows. -/
def badDB : DB := { runs := [badRunRow], steps := [badStepRow] }

/-- What `get_run` returns on `badDB`. -/
def badDetail : RunDetail :=
  { run := runRowView badRunRow, steps := [stepRowView badStepRow] }

/-- A plain running run row with the given id and start timestamp. -/
def plainRun (i : String) (t : Nat) : RunRow :=
  { id := i, name := "n", started_at := t, ended_at := none,
    duration_ms := none, status := "running", metadata := none,
    error := none }

/-- A store with three runs started at times 1, 2, 3. -/
def threeRunsDB : DB :=
  { runs := [plainRun "a" 1, plainRun "b" 2, plainRun "c" 3], steps := [] }

/-- The store right after the facade's `create_run` succeeded. -/
def afterCreate (db : DB) (rs : RunSpec) : DB :=
  { db with runs := db.runs ++
      [createdRunRow rs.rid rs.rname (effPayload rs.metadata) rs.t0] }

/-! ### General lemmas about the store operations -/

/-- Mapping an update over rows none of which match leaves the list
unchanged. -/
theorem map_keep_of_all_false {α : Type} (p : α → Bool) (g : α → α) :
    ∀ l : List α, (∀ a ∈ l, p a = false) →
      l.map (fun a => if p a then g a else a) = l := by
  intro l h
  induction l with
  | nil => rfl
  | cons x xs ih =>
    have hx := h x (List.mem_cons_self x xs)
    simp only [List.map_cons, hx, Bool.false_eq_true, if_false]
    rw [ih (fun a ha => h a (List.mem_cons_of_mem _ ha))]

/-- `find?` skips a prefix on which the predicate is everywhere false. -/
theorem find?_all_false_append {α : Type} (p : α → Bool) (l l2 : List α)
    (hl : ∀ x ∈ l, p x = false) :
    (l ++ l2).find? p = l2.find? p := by
  induction l with
  | nil => rfl
  | cons x xs ih =>
    have hx := hl x (List.mem_cons_self x xs)
    simp only [List.cons_append, List.find?, hx]
    exact ih (fun a ha => hl a (List.mem_cons_of_mem _ ha))

/-- A fresh run id makes `create_run` succeed by appending the new row. -/
theorem create_run_fresh (db : DB) (rid nm : String) (md : JValue) (t : Nat)
    (h : ∀ r ∈ db.runs, r.id ≠ rid) :
    create_run db rid nm md t =
      .ok { db with runs := db.runs ++ [createdRunRow rid nm md t] } := by
  unfold create_run
  rw [if_neg]
  simp only [List.any_eq_true, beq_iff_eq, not_exists, not_and]
  intro r hr
  exact h r hr

/-- `finish_run` never touches the steps table. -/
theorem finish_run_steps (db : DB) (rid : String) (t : Nat) (d : Int)
    (st : String) (err : Option String) :
    (finish_run db rid t d st err).steps = db.steps := rfl

/-- A successful `create_step` appends exactly the new row. -/
theorem create_step_ok (db db1 : DB) (a b c : String) (i : Nat) (v : JValue)
    (r : Option String) (t : Nat)
    (h : create_step db a b c i v r t = .ok db1) :
    db1 = { db with steps := db.steps ++ [createdStepRow a b c i v r t] } := by
  unfold create_step at h
  split at h
  · exact Except.noConfusion h
  · cases h
    rfl

/-- The first component of `runStep` is the handle with the counter
bumped, on every exit path. -/
theorem runStep_fst (run : RunH) (db : DB) (s : StepSpec) :
    (runStep run db s).1 = { run with step_index := run.step_index + 1 } := by
  unfold runStep
  split
  · rfl
  · split <;> rfl

/-- `runStep` never touches the runs table. -/
theorem runStep_runs (run : RunH) (db : DB) (s : StepSpec) :
    (runStep run db s).2.1.runs = db.runs := by
  unfold runStep
  split
  · rfl
  · next db1 heq =>
      have h1 : db1.runs = db.runs := by rw [create_step_ok _ _ _ _ _ _ _ _ _ heq]
      split
      · exact h1
      · exact h1

/-- `execSteps` never touches the runs table. -/
theorem execSteps_runs (specs : List StepSpec) : ∀ (run : RunH) (db : DB),
    (execSteps run db specs).2.1.runs = db.runs := by
  induction specs with
  | nil => intro run db; rfl
  | cons s rest ih =>
    intro run db
    unfold execSteps
    split
    · next run1 db1 heq =>
        rw [ih run1 db1]
        have h := runStep_runs run db s
        rw [heq] at h
        exact h
    · next run1 db1 m heq =>
        have h := runStep_runs run db s
        rw [heq] at h
        exact h

/-- `execSteps` preserves the run handle's identity, recorded error and
start timestamp (only the step counter moves). -/
theorem execSteps_handle (specs : List StepSpec) : ∀ (run : RunH) (db : DB),
    (execSteps run db specs).1.run_id = run.run_id ∧
    (execSteps run db specs).1.error = run.error ∧
    (execSteps run db specs).1.started_at = run.started_at := by
  induction specs with
  | nil => intro run db; exact ⟨rfl, rfl, rfl⟩
  | cons s rest ih =>
    intro run db
    unfold execSteps
    split
    · next run1 db1 heq =>
        have h := runStep_fst run db s
        rw [heq] at h
        dsimp only at h
        have h1 : run1.run_id = run.run_id := by rw [h]
        have h2 : run1.error = run.error := by rw [h]
        have h3 : run1.started_at = run.started_at := by rw [h]
        obtain ⟨i1, i2, i3⟩ := ih run1 db1
        exact ⟨i1.trans h1, i2.trans h2, i3.trans h3⟩
    · next run1 db1 m heq =>
        have h := runStep_fst run db s
        rw [heq] at h
        dsimp only at h
        exact ⟨by rw [h], by rw [h], by rw [h]⟩

/-- Updating the single appended matching row of the runs table. -/
theorem finish_runs_map (runsL : List RunRow) (row : RunRow) (rid : String)
    (hfresh : ∀ r ∈ runsL, r.id ≠ rid) (hrow : row.id = rid) (t : Nat)
    (d : Int) (st : String) (err : Option String) :
    ((runsL ++ [row]).map
        (fun r => if r.id == rid then finishedRunRow r t d st err else r))
      = runsL ++ [finishedRunRow row t d st err] := by
  rw [List.map_append,
    map_keep_of_all_false (fun r => r.id == rid)
      (fun r => finishedRunRow r t d st err) runsL
      (by intro r hr; simp only [beq_eq_false_iff_ne, ne_eq]; exact hfresh r hr)]
  simp [hrow]

/-- `find?` on a fresh prefix plus one matching row yields that row. -/
theorem find_appended_row (runsL : List RunRow) (row : RunRow) (rid : String)
    (hfresh : ∀ r ∈ runsL, r.id ≠ rid) (hrow : row.id = rid) :
    (runsL ++ [row]).find? (fun r => r.id == rid) = some row := by
  rw [find?_all_false_append _ runsL [row]
    (by intro r hr; simp only [beq_eq_false_iff_ne, ne_eq]; exact hfresh r hr)]
  simp [List.find?, hrow]

/-- C5: `create_run` raises a `StorageError` when called with a run id
that already exists in the store. -/
theorem create_run_duplicate (db : DB) (rid nm : String) (md : JValue)
    (t : Nat) (hdup : ∃ r ∈ db.runs, r.id = rid) :
    ∃ e : StorageError, create_run db rid nm md t = .error e := by
  unfold create_run
  rw [if_pos]
  · exact ⟨_, rfl⟩
  · simp only [List.any_eq_true, beq_iff_eq]
    exact hdup

/-- Witness for C5 at a concrete store already holding run id "r". -/
theorem create_run_duplicate_witness :
    ∃ e : StorageError,
      create_run { runs := [sampleRunRow], steps := [] } "r" "again"
        (.obj []) 7 = .error e :=
  create_run_duplicate { runs := [sampleRunRow], steps := [] } "r" "again"
    (.obj []) 7 ⟨sampleRunRow, List.mem_singleton_self _, rfl⟩

/-- C6: `finish_run` against a run id with no matching row updates zero
rows, raises nothing, and leaves the store unchanged. -/
theorem finish_run_missing_noop (db : DB) (rid : String) (t : Nat) (d : Int)
    (st : String) (err : Option String)
    (habs : ∀ r ∈ db.runs, r.id ≠ rid) :
    finish_run db rid t d st err = db := by
  unfold finish_run
  rw [map_keep_of_all_false (fun r => r.id == rid)
    (fun r => finishedRunRow r t d st err) db.runs]
  intro r hr
  simp only [beq_eq_false_iff_ne, ne_eq]
  exact habs r hr

/-- Witness for C6: finishing an absent run id in a one-run store is the
identity. -/
theorem finish_run_missing_noop_witness :
    finish_run { runs := [sampleRunRow], steps := [] } "absent" 5 5
      "success" none = { runs := [sampleRunRow], steps := [] } :=
  finish_run_missing_noop { runs := [sampleRunRow], steps := [] } "absent"
    5 5 "success" none (by
      intro r hr
      simp only [List.mem_singleton] at hr
      subst hr
      decide)

/-- Under a fresh run id, the facade scope reduces to its post-create
continuation. -/
theorem xrayRun_fresh (db : DB) (rs : RunSpec)
    (hfresh : ∀ r ∈ db.runs, r.id ≠ rs.rid) :
    xrayRun db rs =
      (match execSteps (initRunH rs) (afterCreate db rs) rs.steps with
       | (run1, db2, some m) =>
           (runFinish { run1 with error := some m } db2 rs.t1, some m)
       | (run1, db2, none) =>
           match rs.raises with
           | some m =>
               (runFinish { run1 with error := some m } db2 rs.t1, some m)
           | none => (runFinish run1 db2 rs.t1, none)) := by
  unfold xrayRun
  rw [create_run_fresh db rs.rid rs.rname (effPayload rs.metadata) rs.t0
    hfresh]
  rfl

/-- Under a fresh run id, the body's outcome is the first failing step's
message, else the trailing raise. -/
theorem runBodyOutcome_fresh (db : DB) (rs : RunSpec)
    (hfresh : ∀ r ∈ db.runs, r.id ≠ rs.rid) :
    runBodyOutcome db rs =
      (match execSteps (initRunH rs) (afterCreate db rs) rs.steps with
       | (_, _, some m) => some m
       | (_, _, none) => rs.raises) := by
  unfold runBodyOutcome
  rw [create_run_fresh db rs.rid rs.rname (effPayload rs.metadata) rs.t0
    hfresh]
  rfl

/-- C1 (amended): when the body of a facade `run(...)` scope raises an
exception whose stringified message is non-empty, the persisted run
record is finalized with status "error" and error equal to that message,
and the exception propagates unchanged to the facade's caller. -/
theorem run_error_finalization (db : DB) (rs : RunSpec) (m : String)
    (hfresh : ∀ r ∈ db.runs, r.id ≠ rs.rid) (hm : m ≠ "")
    (hraise : runBodyOutcome db rs = some m) :
    (xrayRun db rs).2 = some m ∧
    ((xrayRun db rs).1.runs.find? (fun r => r.id == rs.rid)).map
      (fun r => (r.status, r.error)) = some ("error", some m) := by
  rw [runBodyOutcome_fresh db rs hfresh] at hraise
  rw [xrayRun_fresh db rs hfresh]
  rcases hE : execSteps (initRunH rs) (afterCreate db rs) rs.steps with
    ⟨run1, db2, exc⟩
  rw [hE] at hraise
  have hrid : run1.run_id = rs.rid := by
    have h := (execSteps_handle rs.steps (initRunH rs) (afterCreate db rs)).1
    rw [hE] at h
    exact h
  have hruns : db2.runs = db.runs ++
      [createdRunRow rs.rid rs.rname (effPayload rs.metadata) rs.t0] := by
    have h := execSteps_runs rs.steps (initRunH rs) (afterCreate db rs)
    rw [hE] at h
    exact h
  have hst : (if optStrTruthy (some m) then "error" else "success")
      = "error" := by
    simp [optStrTruthy, hm]
  cases exc with
  | some m2 =>
    dsimp only at hraise
    have hm2 : m2 = m := by
      simpa using hraise
    subst hm2
    refine ⟨rfl, ?_⟩
    unfold runFinish finish_run
    dsimp only
    rw [hrid, hruns, hst,
      finish_runs_map db.runs _ rs.rid hfresh rfl,
      find_appended_row db.runs _ rs.rid hfresh rfl]
    rfl
  | none =>
    dsimp only at hraise
    rw [hraise]
    refine ⟨rfl, ?_⟩
    unfold runFinish finish_run
    dsimp only
    rw [hrid, hruns, hst,
      finish_runs_map db.runs _ rs.rid hfresh rfl,
      find_appended_row db.runs _ rs.rid hfresh rfl]
    rfl

/-- Witness for C1: a body that raises "boom" with no steps, on the empty
store. -/
theorem run_error_finalization_witness :
    (xrayRun emptyDB
      { rid := "run-1", rname := "r", metadata := none, steps := [],
        raises := some "boom", t0 := 0, t1 := 3 }).2 = some "boom" ∧
    ((xrayRun emptyDB
      { rid := "run-1", rname := "r", metadata := none, steps := [],
        raises := some "boom", t0 := 0, t1 := 3 }).1.runs.find?
        (fun r => r.id == "run-1")).map (fun r => (r.status, r.error))
      = some ("error", some "boom") :=
  run_error_finalization emptyDB
    { rid := "run-1", rname := "r", metadata := none, steps := [],
      raises := some "boom", t0 := 0, t1 := 3 } "boom"
    (by intro r hr; cases hr) (by decide) rfl

/-- C2: a run with one step whose body raises "boom" persists exactly one
run row and one step row, both finalized with status "error" and error
"boom", and "boom" propagates to the caller. -/
theorem boom_scenario :
    (xrayRun emptyDB boomSpec).2 = some "boom" ∧
    (xrayRun emptyDB boomSpec).1.runs.length = 1 ∧
    (xrayRun emptyDB boomSpec).1.steps.length = 1 ∧
    ((xrayRun emptyDB boomSpec).1.runs.map fun r => (r.status, r.error))
      = [("error", some "boom")] ∧
    ((xrayRun emptyDB boomSpec).1.steps.map fun s => (s.status, s.error))
      = [("error", some "boom")] := by
  refine ⟨?_, ?_, ?_, ?_, ?_⟩ <;> decide

/-- C3: a run scope over the empty store whose body completes normally
persists exactly one run record, with status "success", non-null
ended_at, and duration_ms ≥ 0. -/
theorem run_success_record (rs : RunSpec) (ht : rs.t0 ≤ rs.t1)
    (hok : (xrayRun emptyDB rs).2 = none) :
    ∃ r : RunRow, (xrayRun emptyDB rs).1.runs = [r] ∧
      r.status = "success" ∧ r.ended_at = some rs.t1 ∧
      ∃ d : Int, r.duration_ms = some d ∧ 0 ≤ d := by
  have hfresh : ∀ r ∈ emptyDB.runs, r.id ≠ rs.rid := by
    intro r hr
    cases hr
  rw [xrayRun_fresh emptyDB rs hfresh] at hok ⊢
  rcases hE : execSteps (initRunH rs) (afterCreate emptyDB rs) rs.steps with
    ⟨run1, db2, exc⟩
  rw [hE] at hok
  cases exc with
  | some m =>
    dsimp only at hok
    exact Option.noConfusion hok
  | none =>
    dsimp only at hok
    cases hR : rs.raises with
    | some m =>
      rw [hR] at hok
      dsimp only at hok
      exact Option.noConfusion hok
    | none =>
      rw [hR] at hok
      have hrid : run1.run_id = rs.rid := by
        have h := (execSteps_handle rs.steps (initRunH rs)
          (afterCreate emptyDB rs)).1
        rw [hE] at h
        exact h
      have herr : run1.error = none := by
        have h := (execSteps_handle rs.steps (initRunH rs)
          (afterCreate emptyDB rs)).2.1
        rw [hE] at h
        exact h
      have hstart : run1.started_at = rs.t0 := by
        have h := (execSteps_handle rs.steps (initRunH rs)
          (afterCreate emptyDB rs)).2.2
        rw [hE] at h
        exact h
      have hruns : db2.runs =
          [createdRunRow rs.rid rs.rname (effPayload rs.metadata) rs.t0] := by
        have h := execSteps_runs rs.steps (initRunH rs)
          (afterCreate emptyDB rs)
        rw [hE] at h
        exact h
      unfold runFinish finish_run
      dsimp only
      rw [hrid, herr, hstart, hruns]
      refine ⟨finishedRunRow
        (createdRunRow rs.rid rs.rname (effPayload rs.metadata) rs.t0)
        rs.t1 ((rs.t1 : Int) - (rs.t0 : Int)) "success" none,
        ?_, rfl, rfl, (rs.t1 : Int) - (rs.t0 : Int), rfl, by omega⟩
      simp [createdRunRow, optStrTruthy]

/-- Witness for C3 at a concrete successful run scope. -/
theorem run_success_record_witness :
    ∃ r : RunRow, (xrayRun emptyDB okSpec).1.runs = [r] ∧
      r.status = "success" ∧ r.ended_at = some okSpec.t1 ∧
      ∃ d : Int, r.duration_ms = some d ∧ 0 ≤ d :=
  run_success_record okSpec (by decide) rfl

/-- The step-handle setters never change the step's identity. -/
theorem foldl_actions_step_id (acts : List StepAction) :
    ∀ st : StepState, (acts.foldl applyStepAction st).step_id = st.step_id := by
  induction acts with
  | nil => intro st; rfl
  | cons a rest ih =>
    intro st
    rw [List.foldl_cons, ih]
    cases a <;> rfl

/-- Updating the single appended matching row of the steps table. -/
theorem finish_steps_map (stepsL : List StepRow) (row : StepRow)
    (sid : String) (hfresh : ∀ x ∈ stepsL, x.id ≠ sid) (hrow : row.id = sid)
    (t : Nat) (d : Int) (st : String) (o f e : Option JValue)
    (er : Option String) :
    ((stepsL ++ [row]).map (fun x =>
        if x.id == sid then finishedStepRow x t d st o f e er else x))
      = stepsL ++ [finishedStepRow row t d st o f e er] := by
  rw [List.map_append,
    map_keep_of_all_false (fun x => x.id == sid)
      (fun x => finishedStepRow x t d st o f e er) stepsL
      (by intro x hx; simp only [beq_eq_false_iff_ne, ne_eq]; exact hfresh x hx)]
  simp [hrow]

/-- A `Run.step` scope with a fresh step id appends exactly one step row,
carrying the run's id and the index the counter held, on every exit
path. -/
theorem runStep_steps_fresh (run : RunH) (db : DB) (s : StepSpec)
    (h : ∀ t ∈ db.steps, t.id ≠ s.sid) :
    ∃ row : StepRow, (runStep run db s).2.1.steps = db.steps ++ [row] ∧
      row.run_id = run.run_id ∧ row.step_index = run.step_index ∧
      row.id = s.sid := by
  have hcs : create_step db s.sid run.run_id s.sname run.step_index
      (effPayload s.input) s.reasoning s.tS =
      .ok { db with steps := db.steps ++ [createdStepRow s.sid run.run_id
        s.sname run.step_index (effPayload s.input) s.reasoning s.tS] } := by
    unfold create_step
    rw [if_neg]
    simp only [List.any_eq_true, beq_iff_eq, not_exists, not_and]
    intro t ht
    exact h t ht
  unfold runStep
  rw [hcs]
  dsimp only
  have hsid : ∀ acts : List StepAction,
      ((acts.foldl applyStepAction (initStepState run s))).step_id = s.sid :=
    fun acts => foldl_actions_step_id acts (initStepState run s)
  cases s.raises with
  | none =>
    unfold stepFinish finish_step
    dsimp only
    rw [hsid s.actions,
      finish_steps_map db.steps _ s.sid h rfl]
    exact ⟨_, rfl, rfl, rfl, rfl⟩
  | some m =>
    unfold stepFinish finish_step
    dsimp only
    rw [show ({ s.actions.foldl applyStepAction (initStepState run s) with
        error := some m } : StepState).step_id = s.sid from hsid s.actions,
      finish_steps_map db.steps _ s.sid h rfl]
    exact ⟨_, rfl, rfl, rfl, rfl⟩

/-- Executing a list of step scopes (each failure caught by the body)
appends one row per step, indices counting up from the handle's counter,
all rows carrying the run's id. -/
theorem execStepsCaught_rows (specs : List StepSpec) :
    ∀ (run : RunH) (db : DB),
    (∀ s ∈ specs, ∀ t ∈ db.steps, t.id ≠ s.sid) →
    (specs.map StepSpec.sid).Nodup →
    ∃ rows : List StepRow,
      (execStepsCaught run db specs).2.steps = db.steps ++ rows ∧
      (∀ r ∈ rows, r.run_id = run.run_id) ∧
      rows.map StepRow.step_index = List.range' run.step_index specs.length ∧
      (execStepsCaught run db specs).1.step_index
        = run.step_index + specs.length := by
  induction specs with
  | nil =>
    intro run db _ _
    exact ⟨[], by simp [execStepsCaught], by simp, rfl, rfl⟩
  | cons s rest ih =>
    intro run db hfresh hnodup
    obtain ⟨row, hsteps, hrow_run, hrow_idx, hrow_id⟩ :=
      runStep_steps_fresh run db s
        (fun t ht => hfresh s (List.mem_cons_self s rest) t ht)
    have hfst := runStep_fst run db s
    have hrest_fresh : ∀ s2 ∈ rest, ∀ t ∈ (runStep run db s).2.1.steps,
        t.id ≠ s2.sid := by
      intro s2 hs2 t ht
      rw [hsteps] at ht
      rcases List.mem_append.mp ht with hin | hone
      · exact hfresh s2 (List.mem_cons_of_mem s hs2) t hin
      · have ht2 : t = row := List.mem_singleton.mp hone
        subst ht2
        rw [hrow_id]
        intro hcontra
        exact (List.nodup_cons.mp hnodup).1
          (hcontra ▸ List.mem_map_of_mem StepSpec.sid hs2)
    obtain ⟨rows, h1, h2, h3, h4⟩ := ih (runStep run db s).1
      (runStep run db s).2.1 hrest_fresh (List.nodup_cons.mp hnodup).2
    refine ⟨row :: rows, ?_, ?_, ?_, ?_⟩
    · unfold execStepsCaught
      rw [h1, hsteps]
      simp
    · intro r hr
      rcases List.mem_cons.mp hr with hr1 | hr2
      · exact hr1 ▸ hrow_run
      · rw [h2 r hr2, hfst]
    · show (row :: rows).map StepRow.step_index
        = List.range' run.step_index (rest.length + 1)
      rw [List.map_cons, h3, hrow_idx, hfst]
      rfl
    · unfold execStepsCaught
      rw [h4, hfst]
      dsimp only [List.length_cons]
      omega

/-- C4: for a fresh run whose body opens N steps through `Run.step` (any
mix of succeeding and failing step bodies), the recorded step indices are
exactly 0..N-1 in creation order, and the handle's counter ends at N;
index assignment is independent of step outcome. -/
theorem step_indices_dense (run : RunH) (db : DB) (specs : List StepSpec)
    (hidx : run.step_index = 0)
    (hrun : ∀ t ∈ db.steps, t.run_id ≠ run.run_id)
    (hfresh : ∀ s ∈ specs, ∀ t ∈ db.steps, t.id ≠ s.sid)
    (hnodup : (specs.map StepSpec.sid).Nodup) :
    (((execStepsCaught run db specs).2.steps.filter
        (fun t => t.run_id == run.run_id)).map StepRow.step_index)
      = List.range specs.length ∧
    (execStepsCaught run db specs).1.step_index = specs.length := by
  obtain ⟨rows, h1, h2, h3, h4⟩ :=
    execStepsCaught_rows specs run db hfresh hnodup
  constructor
  · rw [h1, List.filter_append]
    have hnil : db.steps.filter (fun t => t.run_id == run.run_id) = [] := by
      rw [List.filter_eq_nil_iff]
      intro t ht
      simp only [beq_iff_eq]
      exact hrun t ht
    have hall : rows.filter (fun t => t.run_id == run.run_id) = rows := by
      rw [List.filter_eq_self]
      intro r hr
      simp only [beq_iff_eq]
      exact h2 r hr
    rw [hnil, hall, List.nil_append, h3, hidx, List.range_eq_range']
  · rw [h4, hidx, Nat.zero_add]

/-- Witness for C4: two steps, the second one failing, on a fresh run. -/
theorem step_indices_dense_witness :
    (((execStepsCaught
        { run_id := "run-1", name := "r", metadata := .obj [],
          step_index := 0, started_at := 0, error := none } emptyDB
        [{ sid := "s1", sname := "a", input := none, reasoning := none,
           actions := [], raises := none, tS := 0, tE := 0 },
         { sid := "s2", sname := "b", input := none, reasoning := none,
           actions := [], raises := some "x", tS := 0, tE := 0 }]).2.steps.filter
        (fun t => t.run_id == "run-1")).map StepRow.step_index)
      = List.range 2 ∧
    (execStepsCaught
        { run_id := "run-1", name := "r", metadata := .obj [],
          step_index := 0, started_at := 0, error := none } emptyDB
        [{ sid := "s1", sname := "a", input := none, reasoning := none,
           actions := [], raises := none, tS := 0, tE := 0 },
         { sid := "s2", sname := "b", input := none, reasoning := none,
           actions := [], raises := some "x", tS := 0, tE := 0 }]).1.step_index
      = 2 :=
  step_indices_dense
    { run_id := "run-1", name := "r", metadata := .obj [], step_index := 0,
      started_at := 0, error := none } emptyDB
    [{ sid := "s1", sname := "a", input := none, reasoning := none,
       actions := [], raises := none, tS := 0, tE := 0 },
     { sid := "s2", sname := "b", input := none, reasoning := none,
       actions := [], raises := some "x", tS := 0, tE := 0 }]
    rfl (by intro t ht; cases ht) (by intro s hs t ht; cases ht) (by decide)

/-- Counterexample to C1 as universally stated: a body raising an
exception whose stringified message is empty still propagates and is
recorded in the error column, but the run is finalized with status
"success" — `"error" if self._error else "success"` treats the empty
message as falsy. -/
theorem run_error_finalization_cex :
    (xrayRun emptyDB emptyMsgSpec).2 = some "" ∧
    ((xrayRun emptyDB emptyMsgSpec).1.runs.map
      (fun r => (r.status, r.error))) = [("success", some "")] := by
  constructor <;> decide

/-- C9: `add_evaluation` and `add_evaluations` only append to the step's
evaluation list, never replacing prior entries; adding three records then
finalizing and reading the run back through `get_run` yields the
three-element sequence in call order. -/
theorem add_evaluation_appends (st : StepState) (v : JValue)
    (vs : List JValue) (r1 r2 r3 : JValue) :
    (applyStepAction st (.addEvaluation v)).evaluations
      = st.evaluations ++ [v] ∧
    (applyStepAction st (.addEvaluations vs)).evaluations
      = st.evaluations ++ vs ∧
    (get_run (xrayRun emptyDB (threeEvalSpec r1 r2 r3)).1 "run-1").map
      (fun d => d.steps.map StepView.evaluations)
      = some [some (.arr [r1, r2, r3])] :=
  ⟨rfl, rfl, rfl⟩

/-- Counterexample to C7 as universally stated: a step finalized with the
empty mapping as its filters description reads back `None` from
`get_run`, not a mapping with the same (empty) key set —
`json.dumps(filters_applied) if filters_applied else None` stores NULL
for the falsy empty dict. -/
theorem payload_roundtrip_cex :
    (get_run (xrayRun emptyDB emptyFiltersSpec).1 "run-1").map
      (fun d => d.steps.map StepView.filters_applied) = some [none] := rfl

/-- Absent or malformed mapping-valued columns decode to the empty
mapping. -/
theorem decodeMapField_bad (c : Option JText) (h : badJson c) :
    decodeMapField c = .obj [] := by
  match c with
  | none => rfl
  | some (.valid v) => cases h
  | some (.malformed s) =>
    unfold decodeMapField
    cases hst : JText.truthy (.malformed s) <;> simp [hst, jsonLoads]

/-- Absent or malformed filters/evaluations columns decode to `None`. -/
theorem decodeOptField_bad (c : Option JText) (h : badJson c) :
    decodeOptField c = none := by
  match c with
  | none => rfl
  | some (.valid v) => cases h
  | some (.malformed s) =>
    unfold decodeOptField
    cases hst : JText.truthy (.malformed s) <;> simp [hst, jsonLoads]

/-- C10: `get_run` is total — malformed or absent stored payload text
never raises; on every found run, malformed or absent metadata, input and
output decode to the empty mapping, malformed or absent filters_applied
and evaluations decode to `None`, and every other column is returned as
stored. -/
theorem get_run_malformed_safe (db : DB) (rid : String) (d : RunDetail)
    (h : get_run db rid = some d) :
    (∃ rr ∈ db.runs, rr.id = rid ∧ d.run = runRowView rr ∧
      (badJson rr.metadata → d.run.metadata = .obj []) ∧
      d.run.status = rr.status ∧ d.run.error = rr.error ∧
      d.run.started_at = rr.started_at ∧ d.run.ended_at = rr.ended_at ∧
      d.run.duration_ms = rr.duration_ms ∧ d.run.name = rr.name) ∧
    ∀ sv ∈ d.steps, ∃ sr ∈ db.steps, sr.run_id = rid ∧
      sv = stepRowView sr ∧
      (badJson sr.input → sv.input = .obj []) ∧
      (badJson sr.output → sv.output = .obj []) ∧
      (badJson sr.filters_applied → sv.filters_applied = none) ∧
      (badJson sr.evaluations → sv.evaluations = none) ∧
      sv.status = sr.status ∧ sv.error = sr.error ∧
      sv.index = sr.step_index ∧ sv.name = sr.name ∧
      sv.started_at = sr.started_at ∧ sv.ended_at = sr.ended_at ∧
      sv.duration_ms = sr.duration_ms ∧ sv.reasoning = sr.reasoning := by
  unfold get_run at h
  rcases hfind : db.runs.find? (fun r => r.id == rid) with _ | rr
  · rw [hfind] at h
    exact Option.noConfusion h
  · rw [hfind] at h
    have hd : d =
        { run := runRowView rr,
          steps := ((db.steps.filter (fun s => s.run_id == rid)).insertionSort
            stepAscOrder).map stepRowView } := by
      cases h
      rfl
    have hmem : rr ∈ db.runs := List.mem_of_find?_eq_some hfind
    have hid : rr.id = rid := by
      have := List.find?_some hfind
      simpa using this
    subst hd
    constructor
    · refine ⟨rr, hmem, hid, rfl, ?_, rfl, rfl, rfl, rfl, rfl, rfl⟩
      intro hb
      exact decodeMapField_bad rr.metadata hb
    · intro sv hsv
      dsimp only at hsv
      rcases List.mem_map.mp hsv with ⟨sr, hsr, hveq⟩
      have hsr2 : sr ∈ db.steps.filter (fun s => s.run_id == rid) := by
        rw [List.mem_insertionSort] at hsr
        exact hsr
      have hsr3 : sr ∈ db.steps := (List.mem_filter.mp hsr2).1
      have hsrid : sr.run_id = rid := by
        have := (List.mem_filter.mp hsr2).2
        simpa using this
      subst hveq
      refine ⟨sr, hsr3, hsrid, rfl, ?_, ?_, ?_, ?_, rfl, rfl, rfl, rfl,
        rfl, rfl, rfl, rfl⟩
      · intro hb
        exact decodeMapField_bad sr.input hb
      · intro hb
        exact decodeMapField_bad sr.output hb
      · intro hb
        exact decodeOptField_bad sr.filters_applied hb
      · intro hb
        exact decodeOptField_bad sr.evaluations hb

/-- Witness for C10 on a store holding a malformed run row and a step row
with malformed input and empty-string filters text. -/
theorem get_run_malformed_safe_witness :
    (∃ rr ∈ badDB.runs, rr.id = "bad" ∧ badDetail.run = runRowView rr ∧
      (badJson rr.metadata → badDetail.run.metadata = .obj []) ∧
      badDetail.run.status = rr.status ∧ badDetail.run.error = rr.error ∧
      badDetail.run.started_at = rr.started_at ∧
      badDetail.run.ended_at = rr.ended_at ∧
      badDetail.run.duration_ms = rr.duration_ms ∧
      badDetail.run.name = rr.name) ∧
    ∀ sv ∈ badDetail.steps, ∃ sr ∈ badDB.steps, sr.run_id = "bad" ∧
      sv = stepRowView sr ∧
      (badJson sr.input → sv.input = .obj []) ∧
      (badJson sr.output → sv.output = .obj []) ∧
      (badJson sr.filters_applied → sv.filters_applied = none) ∧
      (badJson sr.evaluations → sv.evaluations = none) ∧
      sv.status = sr.status ∧ sv.error = sr.error ∧
      sv.index = sr.step_index ∧ sv.name = sr.name ∧
      sv.started_at = sr.started_at ∧ sv.ended_at = sr.ended_at ∧
      sv.duration_ms = sr.duration_ms ∧ sv.reasoning = sr.reasoning :=
  get_run_malformed_safe badDB "bad" badDetail rfl

/-- C7 (amended): every JSON-serializable structured value passed as
metadata, input, output, filters or evaluations of a finalized run/step
is returned by `get_run` with its key set and values intact, provided the
truthiness-guarded fields (output, filters, evaluations) are non-empty;
metadata and input also round-trip as empty mappings (an empty filters
mapping or empty evaluations list instead reads back as `None`). -/
theorem payload_roundtrip (md inp o f : JValue) (evs : List JValue)
    (hmd : md.truthy = true ∨ md = .obj [])
    (hinp : inp.truthy = true ∨ inp = .obj [])
    (ho : o.truthy = true) (hf : f.truthy = true) (hevs : evs ≠ []) :
    (get_run (xrayRun emptyDB (payloadSpec md inp o f evs)).1 "run-1").map
      (fun d => (d.run.metadata,
        d.steps.map (fun sv => (sv.input, sv.output, sv.filters_applied,
          sv.evaluations))))
      = some (md, [(inp, o, some f, some (.arr evs))]) := by
  have hemd : effPayload (some md) = md := by
    rcases hmd with h | h
    · simp [effPayload, h]
    · subst h
      rfl
  have heinp : effPayload (some inp) = inp := by
    rcases hinp with h | h
    · simp [effPayload, h]
    · subst h
      rfl
  have hevsE : evs.isEmpty = false := by
    cases evs with
    | nil => exact absurd rfl hevs
    | cons a l => rfl
  simp only [payloadSpec, payloadStep, xrayRun, initRunH, initStepState,
    create_run, create_step, execSteps, runStep, stepFinish, finish_step,
    runFinish, finish_run, createdRunRow, createdStepRow, finishedRunRow,
    finishedStepRow, applyStepAction, dumpsIfTruthy, jsonDumps, hemd, heinp,
    ho, hf, hevsE, get_run, runRowView, stepRowView, decodeMapField,
    decodeOptField, jsonLoads, optStrTruthy, JText.truthy, emptyDB,
    List.any_nil, List.foldl_cons, List.foldl_nil, List.append_nil,
    List.nil_append, List.map_cons, List.map_nil, List.filter,
    List.find?, List.insertionSort, List.orderedInsert, Option.map,
    Bool.false_eq_true, if_false, if_true, ite_true, ite_false]
  simp [JValue.truthy, hevsE]

/-- Witness for C7 at concrete non-empty payloads. -/
theorem payload_roundtrip_witness :
    (get_run (xrayRun emptyDB (payloadSpec (.obj [("k", .num 1)])
        (.obj [("x", .num 2)]) (.obj [("y", .num 3)])
        (.obj [("passed", .bool true)]) [.num 4, .num 5])).1 "run-1").map
      (fun d => (d.run.metadata,
        d.steps.map (fun sv => (sv.input, sv.output, sv.filters_applied,
          sv.evaluations))))
      = some (.obj [("k", .num 1)],
          [(.obj [("x", .num 2)], .obj [("y", .num 3)],
            some (.obj [("passed", .bool true)]),
            some (.arr [.num 4, .num 5]))]) :=
  payload_roundtrip (.obj [("k", .num 1)]) (.obj [("x", .num 2)])
    (.obj [("y", .num 3)]) (.obj [("passed", .bool true)])
    [.num 4, .num 5] (Or.inl rfl) (Or.inl rfl) rfl rfl
    (by intro h; cases h)

/-- C8: for every store state with pairwise-distinct start timestamps and
every limit L, `list_runs L` returns min(K, L) runs without their steps,
strictly newest first, and every stored run it leaves out started earlier
than every run it returns. -/
theorem list_runs_most_recent (db : DB) (L : Nat)
    (hnd : (db.runs.map RunRow.started_at).Nodup) :
    (list_runs db L).length = min db.runs.length L ∧
    (list_runs db L).Pairwise
      (fun a b : RunView => b.started_at < a.started_at) ∧
    ∀ r ∈ db.runs,
      r.started_at ∉ (list_runs db L).map RunView.started_at →
      ∀ v ∈ list_runs db L, r.started_at < v.started_at := by
  have hperm := List.perm_insertionSort runDescOrder db.runs
  have hsorted : (db.runs.insertionSort runDescOrder).Pairwise runDescOrder :=
    List.sorted_insertionSort runDescOrder db.runs
  have hndl : ((db.runs.insertionSort runDescOrder).map
      RunRow.started_at).Nodup :=
    ((hperm.map RunRow.started_at).nodup_iff).mpr hnd
  have hne : (db.runs.insertionSort runDescOrder).Pairwise
      (fun a b => a.started_at ≠ b.started_at) :=
    List.pairwise_map.mp hndl
  have hstrict : (db.runs.insertionSort runDescOrder).Pairwise
      (fun a b : RunRow => b.started_at < a.started_at) := by
    refine (hsorted.and hne).imp ?_
    intro a b hab
    exact lt_of_le_of_ne hab.1 (Ne.symm hab.2)
  have hviews : (list_runs db L).map RunView.started_at
      = ((db.runs.insertionSort runDescOrder).take L).map
          RunRow.started_at := by
    unfold list_runs
    rw [List.map_map]
    rfl
  refine ⟨?_, ?_, ?_⟩
  · unfold list_runs
    rw [List.length_map, List.length_take, List.length_insertionSort,
      Nat.min_comm]
  · unfold list_runs
    rw [List.pairwise_map]
    exact hstrict.sublist (List.take_sublist L _)
  · intro r hr hnotin v hv
    unfold list_runs at hv
    rcases List.mem_map.mp hv with ⟨a, ha, hva⟩
    have hrl : r ∈ db.runs.insertionSort runDescOrder :=
      hperm.mem_iff.mpr hr
    have hsplit := List.take_append_drop L (db.runs.insertionSort
      runDescOrder)
    have hcross := (List.pairwise_append.mp
      (hsplit ▸ hstrict)).2.2
    have hrdrop : r ∈ (db.runs.insertionSort runDescOrder).drop L := by
      rcases List.mem_append.mp (hsplit ▸ hrl) with htake | hdrop
      · exfalso
        apply hnotin
        rw [hviews]
        exact List.mem_map_of_mem RunRow.started_at htake
      · exact hdrop
    have := hcross a ha r hrdrop
    rw [← hva]
    exact this

/-- Witness for C8: three runs started at 1, 2, 3 with limit 2. -/
theorem list_runs_most_recent_witness :
    (list_runs threeRunsDB 2).length = min threeRunsDB.runs.length 2 ∧
    (list_runs threeRunsDB 2).Pairwise
      (fun a b : RunView => b.started_at < a.started_at) ∧
    ∀ r ∈ threeRunsDB.runs,
      r.started_at ∉ (list_runs threeRunsDB 2).map RunView.started_at →
      ∀ v ∈ list_runs threeRunsDB 2, r.started_at < v.started_at :=
  list_runs_most_recent threeRunsDB 2 (by decide)

end XRay
